import Mathlib

/-!
Shallow embedding of `pkg/iam/openid/jwt.go` (MinIO OpenID JWT validator).

Modelling conventions:
* Go `interface{}` claim values become the tagged union `GoVal`.  The
  `float64` case is modelled at integral values (JSON timestamps), since
  floating point is outside the embedding's scope.
* `crypto.PublicKey` is opaque in the source; keys are abstract tokens
  (`PublicKey := Nat`).  The Go map `map[string]crypto.PublicKey` becomes an
  association list updated with replace-or-append semantics.
* The HTTP fetch performed by `PopulatePublicKey` is a parameter
  (`FetchOutcome`) describing the transport result, the status code and the
  decode results of the body, exactly the observations `jwt.go` makes of it.
* `time.Now()` is modelled as a single instant `nowNs` (nanoseconds since
  epoch) for the whole call.
* Errors are the distinctions `jwt.go` itself makes (`GoError`).
-/

deriving instance DecidableEq for Except

namespace OpenId

/-- Abstract asymmetric public key material (`crypto.PublicKey` is opaque). -/
abbrev PublicKey := Nat

/-- The cached mapping from key id to public key (`map[string]crypto.PublicKey`). -/
abbrev KeyMap := List (String × PublicKey)

/-- Dynamically typed Go value, as `jwt.go` discriminates them: `float64`,
`int64`, `json.Number`, `string`, `nil`, and anything else. -/
inductive GoVal where
  | vfloat (i : Int)
  | vint (i : Int)
  | vnumber (s : String)
  | vstring (s : String)
  | vnil
  | vother
deriving DecidableEq, Repr

/-- A decoded claim set (`jwtgo.MapClaims`). -/
abbrev Claims := List (String × GoVal)

/-- Go map read `claims[k]`: a missing key yields the `nil` interface. -/
def claimLookup (c : Claims) (k : String) : GoVal :=
  match c.find? (fun p => p.1 = k) with
  | some p => p.2
  | none => GoVal.vnil

/-- Go map write `m[k] = v`: replace an existing binding, else append. -/
def mapInsertVal (c : Claims) (k : String) (v : GoVal) : Claims :=
  match c with
  | [] => [(k, v)]
  | p :: rest => if p.1 = k then (k, v) :: rest else p :: mapInsertVal rest k v

/-- Go map write on the key cache (`r.publicKeys[kid] = pk`). -/
def mapInsertKey (m : KeyMap) (k : String) (v : PublicKey) : KeyMap :=
  match m with
  | [] => [(k, v)]
  | p :: rest => if p.1 = k then (k, v) :: rest else p :: mapInsertKey rest k v

/-- Errors distinguished by `jwt.go`. `numError` is the `strconv` error
returned by `json.Number.Int64`; `parseMsg` abstracts a `jwt-go` parse or
verification error; `panicFormatBase` records that `strconv.FormatInt` with
base 64 panics in Go. -/
inductive PopError where
  | transport
  | httpStatus (code : Nat)
  | decodeDoc
  | decodeKey
deriving DecidableEq, Repr

inductive GoError where
  | invalidDuration
  | tokenExpired
  | numError
  | parseMsg (msg : String)
  | populate (e : PopError)
  | urlParse
  | panicFormatBase
deriving DecidableEq, Repr

/-- Accumulate base-10 digits; any non-digit character fails
(`strconv.ParseInt` with base 10 accepts only `0`-`9`). -/
def digitsVal (cs : List Char) : Option Nat :=
  cs.foldl
    (fun acc c =>
      match acc with
      | none => none
      | some n => if c.isDigit then some (n * 10 + (c.toNat - 48)) else none)
    (some 0)

/-- Go `strconv.ParseInt(s, 10, 64)`: optional sign, then one or more decimal
digits, value within the signed 64-bit range; `none` models a non-nil error. -/
def goParseInt64 (s : String) : Option Int :=
  match s.data with
  | [] => none
  | c :: rest =>
    let signed : Bool × List Char :=
      if c = '-' then (true, rest)
      else if c = '+' then (false, rest)
      else (false, c :: rest)
    match signed.2 with
    | [] => none
    | ds =>
      match digitsVal ds with
      | none => none
      | some n =>
        let v : Int := if signed.1 then -(n : Int) else (n : Int)
        if v < -(2 ^ 63) ∨ 2 ^ 63 - 1 < v then none else some v

/-- Function `expToInt64` from `jwt.go`: `float64` and `int64` are taken directly,
`json.Number` is parsed via `Int64()` (surfacing the `strconv` error on
failure), every other dynamic type yields `ErrInvalidDuration`. -/
def expToInt64 (v : GoVal) : Except GoError Int :=
  match v with
  | GoVal.vfloat e => Except.ok e
  | GoVal.vint e => Except.ok e
  | GoVal.vnumber s =>
    match goParseInt64 s with
    | some n => Except.ok n
    | none => Except.error GoError.numError
  | _ => Except.error GoError.invalidDuration

/-- Function `GetDefaultExpiration` from `jwt.go`, in nanoseconds (`time.Duration`):
empty string gives the 1h default; otherwise the string is parsed base 10 and
checked against the closed range `[900, 43200]` seconds. -/
def getDefaultExpiration (dsecs : String) : Except GoError Int :=
  let defaultExpiryDuration : Int := 60 * 60 * 1000000000
  if dsecs ≠ "" then
    match goParseInt64 dsecs with
    | none => Except.error GoError.invalidDuration
    | some expirySecs =>
      if expirySecs < 900 ∨ expirySecs > 43200 then Except.error GoError.invalidDuration
      else Except.ok (expirySecs * 1000000000)
  else Except.ok defaultExpiryDuration

/-- One entry of the fetched key-set document: its `kid` and the outcome of
`key.DecodePublicKey()` (decoding happens outside `jwt.go`; the outcome is
data here). -/
structure JwkEntry where
  kid : String
  decoded : Option PublicKey
deriving DecidableEq, Repr

/-- Observation `PopulatePublicKey` makes of the HTTP fetch: transport error,
or a response with its status code and the decode result of the body (`none`
when the body is not a well-formed key-set document). -/
inductive FetchOutcome where
  | transportErr
  | resp (status : Nat) (body : Option (List JwkEntry))
deriving DecidableEq, Repr

/-- Record `JWKSArgs`: the endpoint URL (if configured) and the cached key mapping.
The transport and cleanup hook carry no observable state for these claims. -/
structure JWKSArgs where
  url : Option String
  publicKeys : KeyMap
deriving DecidableEq, Repr

/-- The decoding loop of `PopulatePublicKey`: starting from the already
reset cache, decode each entry in order, returning at the first failure with
whatever was built so far (the Go loop mutates `r.publicKeys` in place). -/
def populateLoop (r : JWKSArgs) : List JwkEntry → JWKSArgs × Option PopError
  | [] => (r, none)
  | k :: rest =>
    match k.decoded with
    | none => (r, some PopError.decodeKey)
    | some pk =>
      populateLoop { r with publicKeys := mapInsertKey r.publicKeys k.kid pk } rest

/-- Method `PopulatePublicKey` from `jwt.go`.  The final `Bool` records whether an
HTTP request was issued (`client.Get` reached).  With no URL configured it
returns success immediately.  On transport error, non-200 status, or a body
that fails to decode as a key-set document, the cache is untouched.
Otherwise the cache is reset to an empty map and filled entry by entry —
the Go code assigns `r.publicKeys = make(...)` before the loop, so a
mid-loop decode failure leaves the partially built map behind. -/
def populatePublicKey (r : JWKSArgs) (fetch : FetchOutcome) :
    JWKSArgs × Option PopError × Bool :=
  match r.url with
  | none => (r, none, false)
  | some _ =>
    match fetch with
    | FetchOutcome.transportErr => (r, some PopError.transport, true)
    | FetchOutcome.resp status body =>
      if status ≠ 200 then (r, some (PopError.httpStatus status), true)
      else
        match body with
        | none => (r, some PopError.decodeDoc, true)
        | some keys =>
          let out := populateLoop { r with publicKeys := [] } keys
          (out.1, out.2, true)

/-- Outcome of one `ParseWithClaims` attempt as `jwt.go` observes it: a
non-nil error, or a token with its decoded claims and `Valid` flag. -/
inductive ParseResult where
  | failed (msg : String)
  | parsed (claims : Claims) (valid : Bool)
deriving DecidableEq, Repr

/-- Instrumentation of one `Validate` call: number of parse attempts, of
`PopulatePublicKey` calls, of key-cache lookups performed inside the parse
attempts, and the decoded claims/`Valid` flag of the successful attempt. -/
structure VStats where
  parses : Nat
  refreshes : Nat
  lookups : Nat
  decoded : Option (Claims × Bool)
deriving DecidableEq, Repr

/-- The clamp in `Validate`: if the token's remaining time-to-expiry is
smaller than the computed duration, the remaining time is used instead. -/
def effectiveDuration (d remaining : Int) : Int :=
  if remaining < d then remaining else d

/-- The tail of `Validate` after a parse attempt returned without error:
the `Valid` check, expiry extraction, expiry policy, clamp, and the final
comparison.  `strconv.FormatInt(expAt, 64)` uses an illegal base and panics
in Go; the panic is recorded as `panicFormatBase`. -/
def validateFinish (claims : Claims) (valid : Bool) (dsecs : String)
    (nowNs : Int) : Except GoError Claims :=
  if valid = false then Except.error GoError.tokenExpired
  else
    match expToInt64 (claimLookup claims "exp") with
    | Except.error e => Except.error e
    | Except.ok expAt =>
      match getDefaultExpiration dsecs with
      | Except.error e => Except.error e
      | Except.ok d =>
        let remaining := expAt * 1000000000 - nowNs
        let eff := effectiveDuration d remaining
        let expiry := Int.fdiv (nowNs + eff) 1000000000
        if expAt < expiry then Except.error GoError.panicFormatBase
        else Except.ok claims

/-- Method `Validate` from `jwt.go`, with the two parse attempts abstracted as
functions of the current key cache (the source uses the restricted parser
`jp` for the first attempt and the package-level default parser for the
retry, hence two parameters).  On a first-attempt error it refreshes the
cache once via `PopulatePublicKey` and retries exactly once. -/
def validateCore (parse1 parse2 : KeyMap → ParseResult × Nat) (dsecs : String)
    (args : JWKSArgs) (fetch : FetchOutcome) (nowNs : Int) :
    Except GoError Claims × VStats :=
  let a1 := parse1 args.publicKeys
  match a1.1 with
  | ParseResult.parsed claims valid =>
    (validateFinish claims valid dsecs nowNs,
     ⟨1, 0, a1.2, some (claims, valid)⟩)
  | ParseResult.failed _ =>
    let pop := populatePublicKey args fetch
    match pop.2.1 with
    | some pe => (Except.error (GoError.populate pe), ⟨1, 1, a1.2, none⟩)
    | none =>
      let a2 := parse2 pop.1.publicKeys
      match a2.1 with
      | ParseResult.failed m2 =>
        (Except.error (GoError.parseMsg m2), ⟨2, 1, a1.2 + a2.2, none⟩)
      | ParseResult.parsed claims valid =>
        (validateFinish claims valid dsecs nowNs,
         ⟨2, 1, a1.2 + a2.2, some (claims, valid)⟩)

/-- The algorithm allow-list installed on the restricted parser:
`jp.ValidMethods` in `jwt.go`. -/
def validMethods : List String :=
  ["RS256", "RS384", "RS512", "ES256", "ES384", "ES512"]

/-- Modelled from the spec: the signature-algorithm families registered with
the vendored token library (`jwt-go`, not under `src/`): RSA, ECDSA, HMAC,
RSA-PSS tiers and the unsigned marker. -/
def knownAlgs : List String :=
  ["RS256", "RS384", "RS512", "ES256", "ES384", "ES512",
   "HS256", "HS384", "HS512", "PS256", "PS384", "PS512", "none"]

/-- Modelled from the spec: the symmetric (HMAC) algorithm names; verifying
them requires a shared byte-secret, so a stored asymmetric public key can
never satisfy them. -/
def hmacAlgs : List String := ["HS256", "HS384", "HS512"]

/-- A token as the parse flow observes it: declared algorithm, the dynamic
value of the `kid` header, the decoded claims, and which public keys its
signature verifies under. -/
structure TokenModel where
  alg : String
  kid : GoVal
  claims : Claims
  verifiesWith : PublicKey → Bool

/-- Modelled from the spec: the expiry comparison of the vendored library's
claim validation (not under `src/`) — a zero expiry is not enforced. -/
def verifyExpAt (e nowSec : Int) : Bool :=
  if e = 0 then true else decide (nowSec ≤ e)

/-- Modelled from the spec: the token's own temporal-validity assertion
(vendored library code, not under `src/`): the expiry claim, read as a
float or numeric string, must not be in the past; other shapes or a missing
claim do not invalidate. -/
def mapClaimsValid (claims : Claims) (nowSec : Int) : Bool :=
  match claimLookup claims "exp" with
  | GoVal.vfloat e => verifyExpAt e nowSec
  | GoVal.vnumber s =>
    verifyExpAt (match goParseInt64 s with | some e => e | none => 0) nowSec
  | _ => true

/-- Modelled from the spec: one `ParseWithClaims` attempt of the vendored
token library (not under `src/`).  An unregistered algorithm fails before
any key handling; with a non-empty allow-list a disallowed algorithm is
rejected with no key lookup; then the `kid` header must be a string
(`keyFuncCallback` in `jwt.go` errors otherwise, before indexing the
cache); the single cache lookup follows, an unknown `kid` yielding a nil
key that can verify nothing, and a symmetric algorithm rejecting any stored
public key; finally temporal validity is enforced.  The second component
counts key-cache lookups. -/
def parseModel (methods : List String) (tok : TokenModel) (keys : KeyMap)
    (nowSec : Int) : ParseResult × Nat :=
  if tok.alg ∉ knownAlgs then (ParseResult.failed "signing method unavailable", 0)
  else if methods ≠ [] ∧ tok.alg ∉ methods then
    (ParseResult.failed "signing method invalid", 0)
  else
    match tok.kid with
    | GoVal.vstring kid =>
      let key := (keys.find? (fun p => p.1 = kid)).map Prod.snd
      let sigOK :=
        if tok.alg ∈ hmacAlgs then false
        else
          match key with
          | none => false
          | some k => tok.verifiesWith k
      if sigOK = false then (ParseResult.failed "signature invalid", 1)
      else if mapClaimsValid tok.claims nowSec then (ParseResult.parsed tok.claims true, 1)
      else (ParseResult.failed "token expired", 1)
    | _ => (ParseResult.failed "invalid kid value", 0)

/-- Method `Validate` with both parse attempts instantiated by the library model:
the first uses the `validMethods` allow-list, the retry uses the
package-level default parser, which enforces no allow-list. -/
def validateJWT (tok : TokenModel) (dsecs : String) (args : JWKSArgs)
    (fetch : FetchOutcome) (nowNs : Int) : Except GoError Claims × VStats :=
  validateCore
    (fun km => parseModel validMethods tok km (Int.fdiv nowNs 1000000000))
    (fun km => parseModel [] tok km (Int.fdiv nowNs 1000000000))
    dsecs args fetch nowNs

/-- Modelled from the spec: the environment override lookup (`env.Get`, not
under `src/`): the variable's value when set, else the supplied default. -/
def envGet (envVal : Option String) (defaultValue : String) : String :=
  match envVal with
  | some v => v
  | none => defaultValue

/-- The URL `LookupConfig` resolves: the configured one, overridden by the
environment variable when set. -/
def effectiveJwksURL (args : JWKSArgs) (envVal : Option String) : String :=
  envGet envVal (match args.url with | some u => u | none => "")

/-- Function `LookupConfig` from `jwt.go`: resolve the effective URL from config and
environment; an empty result returns the arguments unchanged with no fetch;
otherwise the URL is parsed (`parseURL` abstracts `xnet.ParseURL`, not under
`src/`), recorded, and `PopulatePublicKey` is invoked eagerly.  The `Bool`
records whether an HTTP request was issued. -/
def lookupConfig (args : JWKSArgs) (envVal : Option String)
    (parseURL : String → Option String) (fetch : FetchOutcome) :
    JWKSArgs × Option GoError × Bool :=
  let jwksURL := effectiveJwksURL args envVal
  if jwksURL = "" then (args, none, false)
  else
    match parseURL jwksURL with
    | none => (args, some GoError.urlParse, false)
    | some u =>
      let out := populatePublicKey { args with url := some u } fetch
      match out.2.1 with
      | some e => (out.1, some (GoError.populate e), out.2.2)
      | none => (out.1, none, out.2.2)

/-! Helper lemmas shared by several claims. -/

/-- The final expiry computed by `Validate` never exceeds the token's own
absolute expiry: the clamp makes `now + effectiveDuration` at most
`expAt * 10^9` nanoseconds, and flooring to seconds cannot exceed `expAt`. -/
theorem fdiv_expiry_le (nowNs expAt d : Int) :
    Int.fdiv (nowNs + effectiveDuration d (expAt * 1000000000 - nowNs)) 1000000000 ≤ expAt := by
  unfold effectiveDuration
  by_cases h : expAt * 1000000000 - nowNs < d
  · rw [if_pos h]
    have h1 : nowNs + (expAt * 1000000000 - nowNs) = expAt * 1000000000 := by ring
    rw [h1, Int.fdiv_eq_ediv _ (by norm_num), Int.mul_ediv_cancel _ (by norm_num)]
  · rw [if_neg h]
    have hle : nowNs + d ≤ expAt * 1000000000 := by omega
    rw [Int.fdiv_eq_ediv _ (by norm_num)]
    calc (nowNs + d) / 1000000000
        ≤ expAt * 1000000000 / 1000000000 := Int.ediv_le_ediv (by norm_num) hle
      _ = expAt := Int.mul_ediv_cancel _ (by norm_num)

/-- When `validateFinish` returns claims, they are exactly the claims it was
given and the `Valid` flag was set. -/
theorem validateFinish_ok (claims : Claims) (valid : Bool) (dsecs : String)
    (nowNs : Int) (c' : Claims)
    (h : validateFinish claims valid dsecs nowNs = Except.ok c') :
    c' = claims ∧ valid = true := by
  unfold validateFinish at h
  cases valid with
  | false => simp at h
  | true =>
    simp only [Bool.true_eq_false, if_false] at h
    constructor
    · cases hexp : expToInt64 (claimLookup claims "exp") with
      | error e => rw [hexp] at h; cases h
      | ok expAt =>
        rw [hexp] at h
        cases hdur : getDefaultExpiration dsecs with
        | error e => rw [hdur] at h; cases h
        | ok d =>
          rw [hdur] at h
          simp only at h
          split at h
          · cases h
          · exact (Except.ok.injEq _ _ ▸ h).symm
    · rfl

/-- C5: `GetDefaultExpiration` returns 3600 seconds for the empty string;
otherwise it parses the string base 10 and returns that many seconds when
the value lies in `[900, 43200]`, failing with `InvalidDuration` when the
string is unparsable or the value is out of range; in particular `"900"`
and `"43200"` succeed while `"899"` and `"43201"` fail. -/
theorem getDefaultExpiration_spec :
    getDefaultExpiration "" = Except.ok (3600 * 1000000000) ∧
    (∀ s v, s ≠ "" → goParseInt64 s = some v → 900 ≤ v → v ≤ 43200 →
      getDefaultExpiration s = Except.ok (v * 1000000000)) ∧
    (∀ s v, s ≠ "" → goParseInt64 s = some v → (v < 900 ∨ 43200 < v) →
      getDefaultExpiration s = Except.error GoError.invalidDuration) ∧
    (∀ s, s ≠ "" → goParseInt64 s = none →
      getDefaultExpiration s = Except.error GoError.invalidDuration) ∧
    getDefaultExpiration "900" = Except.ok (900 * 1000000000) ∧
    getDefaultExpiration "43200" = Except.ok (43200 * 1000000000) ∧
    getDefaultExpiration "899" = Except.error GoError.invalidDuration ∧
    getDefaultExpiration "43201" = Except.error GoError.invalidDuration := by
  refine ⟨by decide, ?_, ?_, ?_, by decide, by decide, by decide, by decide⟩
  · intro s v hs hp h9 h4
    simp only [getDefaultExpiration, if_pos hs, hp]
    rw [if_neg (by omega)]
  · intro s v hs hp hout
    simp only [getDefaultExpiration, if_pos hs, hp]
    rw [if_pos (by omega)]
  · intro s hs hp
    simp only [getDefaultExpiration, if_pos hs, hp]

/-- C5 witness: a non-boundary requested duration, parsed and granted. -/
theorem getDefaultExpiration_spec_witness :
    ("1000" : String) ≠ "" ∧ goParseInt64 "1000" = some 1000 ∧
    getDefaultExpiration "1000" = Except.ok (1000 * 1000000000) :=
  ⟨by decide, by decide,
   getDefaultExpiration_spec.2.1 "1000" 1000 (by decide) (by decide)
     (by decide) (by decide)⟩

/-- C8 counterexample: the `json.Number` string `"1.5"` is a numeric-string
representation of a number, yet `expToInt64` fails on it — and the failure
is the `strconv` error from `Int64()`, not `InvalidDuration`.  This refutes
both halves of the claim: a numeric string that does not succeed, and a
failing value whose error is not `InvalidDuration`. -/
theorem expToInt64_fraction_counterexample :
    expToInt64 (GoVal.vnumber "1.5") = Except.error GoError.numError ∧
    expToInt64 (GoVal.vnumber "1.5") ≠ Except.error GoError.invalidDuration := by
  decide

/-- C8 amended: `expToInt64` succeeds on `float64` and `int64` values and on
`json.Number` strings that parse as base-10 64-bit integers; a `json.Number`
whose string does not so parse fails with the numeric-conversion error; a
value of any other dynamic type fails with `InvalidDuration`. -/
theorem expToInt64_spec :
    (∀ i, expToInt64 (GoVal.vfloat i) = Except.ok i) ∧
    (∀ i, expToInt64 (GoVal.vint i) = Except.ok i) ∧
    (∀ s v, goParseInt64 s = some v → expToInt64 (GoVal.vnumber s) = Except.ok v) ∧
    (∀ s, goParseInt64 s = none →
      expToInt64 (GoVal.vnumber s) = Except.error GoError.numError) ∧
    (∀ s, expToInt64 (GoVal.vstring s) = Except.error GoError.invalidDuration) ∧
    expToInt64 GoVal.vnil = Except.error GoError.invalidDuration ∧
    expToInt64 GoVal.vother = Except.error GoError.invalidDuration := by
  refine ⟨fun i => rfl, fun i => rfl, ?_, ?_, fun s => rfl, rfl, rfl⟩
  · intro s v hp; simp [expToInt64, hp]
  · intro s hp; simp [expToInt64, hp]

/-- C8 witness: an integral `json.Number` coerces to its integer value. -/
theorem expToInt64_spec_witness :
    goParseInt64 "1700000000" = some 1700000000 ∧
    expToInt64 (GoVal.vnumber "1700000000") = Except.ok 1700000000 :=
  ⟨by decide, expToInt64_spec.2.2.1 "1700000000" 1700000000 (by decide)⟩

/-- C10: with no key-set endpoint URL configured, `PopulatePublicKey`
returns success immediately, issues no HTTP request, and leaves the cached
mapping (indeed the whole record) unchanged, whatever the network would
have answered. -/
theorem populatePublicKey_no_url (r : JWKSArgs) (fetch : FetchOutcome)
    (h : r.url = none) : populatePublicKey r fetch = (r, none, false) := by
  unfold populatePublicKey
  rw [h]

/-- C10 witness: a concrete unconfigured record and a network that would
have failed: the call still succeeds untouched, with no request issued. -/
theorem populatePublicKey_no_url_witness :
    populatePublicKey ⟨none, [("a", 1)]⟩ FetchOutcome.transportErr =
      (⟨none, [("a", 1)]⟩, none, false) :=
  populatePublicKey_no_url ⟨none, [("a", 1)]⟩ FetchOutcome.transportErr rfl

/-- Fold the decodable prefix of a key-set document into a key mapping, the
way the `PopulatePublicKey` loop fills its freshly reset cache. -/
def buildKeyMapFrom (m : KeyMap) : List JwkEntry → KeyMap
  | [] => m
  | k :: rest =>
    match k.decoded with
    | some pk => buildKeyMapFrom (mapInsertKey m k.kid pk) rest
    | none => m

/-- A `takeWhile` over a list all of whose elements satisfy the predicate is
the whole list. -/
theorem takeWhile_eq_of_all {α : Type} (p : α → Bool) (l : List α)
    (h : ∀ a ∈ l, p a = true) : l.takeWhile p = l := by
  induction l with
  | nil => rfl
  | cons a t ih =>
    have h1 : p a = true := h a (List.mem_cons_self a t)
    simp [List.takeWhile_cons, h1,
      ih (fun b hb => h b (List.mem_cons_of_mem a hb))]

/-- The decoding loop keeps the URL, builds exactly the decodable prefix of
the document into the cache, and succeeds exactly when every entry decodes. -/
theorem populateLoop_spec (ks : List JwkEntry) (r : JWKSArgs) :
    (populateLoop r ks).1.publicKeys =
      buildKeyMapFrom r.publicKeys (ks.takeWhile fun k => k.decoded.isSome) ∧
    (populateLoop r ks).1.url = r.url ∧
    ((populateLoop r ks).2 = none ↔ ∀ k ∈ ks, k.decoded.isSome = true) := by
  induction ks generalizing r with
  | nil => simp [populateLoop, buildKeyMapFrom]
  | cons k rest ih =>
    cases hd : k.decoded with
    | none =>
      refine ⟨?_, ?_, ?_⟩
      · simp [populateLoop, hd, List.takeWhile_cons, buildKeyMapFrom]
      · simp [populateLoop, hd]
      · simp only [populateLoop, hd]
        constructor
        · intro h; cases h
        · intro h
          have := h k (List.mem_cons_self k rest)
          rw [hd] at this
          cases this
    | some pk =>
      have ihr := ih { r with publicKeys := mapInsertKey r.publicKeys k.kid pk }
      refine ⟨?_, ?_, ?_⟩
      · simpa [populateLoop, hd, List.takeWhile_cons, buildKeyMapFrom] using ihr.1
      · simpa [populateLoop, hd] using ihr.2.1
      · simp only [populateLoop, hd]
        rw [ihr.2.2]
        constructor
        · intro h b hb
          rcases List.mem_cons.mp hb with hb | hb
          · rw [hb, hd]; rfl
          · exact h b hb
        · intro h b hb
          exact h b (List.mem_cons_of_mem k hb)

/-- C1 counterexample: a cached mapping holding key id `a`, and a fetched
key-set document whose first entry (`b`) decodes but whose second (`c`)
does not.  The call returns a decode error, yet the cached mapping has been
replaced by the partially built one holding only `b` — not left as it was
before the call. -/
theorem populatePublicKey_partial_counterexample :
    (populatePublicKey ⟨some "https://idp.example/keys", [("a", 1)]⟩
        (FetchOutcome.resp 200 (some [⟨"b", some 2⟩, ⟨"c", none⟩]))).2.1 =
      some PopError.decodeKey ∧
    (populatePublicKey ⟨some "https://idp.example/keys", [("a", 1)]⟩
        (FetchOutcome.resp 200 (some [⟨"b", some 2⟩, ⟨"c", none⟩]))).1.publicKeys =
      [("b", 2)] ∧
    [("b", (2 : PublicKey))] ≠ [("a", 1)] := by
  decide

/-- C1 amended: transport failures, non-success statuses and failures to
decode the key-set document itself leave the cached mapping exactly as it
was and surface an error; on full success the mapping built from every
listed entry replaces the old one; but when some key entry fails to decode,
the call errors with the cache already replaced by the partially built
mapping holding exactly the entries preceding the first failure. -/
theorem populatePublicKey_cases (r : JWKSArgs) (u : String)
    (h : r.url = some u) :
    populatePublicKey r FetchOutcome.transportErr = (r, some PopError.transport, true) ∧
    (∀ s b, s ≠ 200 → populatePublicKey r (FetchOutcome.resp s b) =
      (r, some (PopError.httpStatus s), true)) ∧
    populatePublicKey r (FetchOutcome.resp 200 none) = (r, some PopError.decodeDoc, true) ∧
    (∀ ks, (populatePublicKey r (FetchOutcome.resp 200 (some ks))).1.url = r.url ∧
      (populatePublicKey r (FetchOutcome.resp 200 (some ks))).1.publicKeys =
        buildKeyMapFrom [] (ks.takeWhile fun k => k.decoded.isSome) ∧
      ((populatePublicKey r (FetchOutcome.resp 200 (some ks))).2.1 = none ↔
        ∀ k ∈ ks, k.decoded.isSome = true)) ∧
    (∀ ks, (∀ k ∈ ks, k.decoded.isSome = true) →
      (populatePublicKey r (FetchOutcome.resp 200 (some ks))).1.publicKeys =
        buildKeyMapFrom [] ks) := by
  refine ⟨?_, ?_, ?_, ?_, ?_⟩
  · unfold populatePublicKey; rw [h]
  · intro s b hs; unfold populatePublicKey; rw [h]; simp [hs]
  · unfold populatePublicKey; rw [h]; simp
  · intro ks
    have hs := populateLoop_spec ks ⟨some u, []⟩
    unfold populatePublicKey
    rw [h]
    simpa [h] using ⟨hs.2.1, hs.1, hs.2.2⟩
  · intro ks hall
    have hs := populateLoop_spec ks ⟨some u, []⟩
    unfold populatePublicKey
    rw [h]
    simpa [takeWhile_eq_of_all _ ks hall] using hs.1

/-- C1 amended witness: a concrete configured record; a transport failure
leaves the cache untouched, and a fully decodable two-entry document
replaces it wholesale. -/
theorem populatePublicKey_cases_witness :
    populatePublicKey ⟨some "https://idp.example/keys", [("a", 1)]⟩
        FetchOutcome.transportErr =
      (⟨some "https://idp.example/keys", [("a", 1)]⟩, some PopError.transport, true) ∧
    (populatePublicKey ⟨some "https://idp.example/keys", [("a", 1)]⟩
        (FetchOutcome.resp 200 (some [⟨"b", some 2⟩, ⟨"d", some 3⟩]))).1.publicKeys =
      buildKeyMapFrom [] [⟨"b", some 2⟩, ⟨"d", some 3⟩] :=
  ⟨(populatePublicKey_cases ⟨some "https://idp.example/keys", [("a", 1)]⟩
      "https://idp.example/keys" rfl).1,
   (populatePublicKey_cases ⟨some "https://idp.example/keys", [("a", 1)]⟩
      "https://idp.example/keys" rfl).2.2.2.2 [⟨"b", some 2⟩, ⟨"d", some 3⟩]
     (by decide)⟩

/-- Equation: a first parse attempt without error skips refresh and retry. -/
theorem validateCore_eq_parsed1 (parse1 parse2 : KeyMap → ParseResult × Nat)
    (dsecs : String) (args : JWKSArgs) (fetch : FetchOutcome) (nowNs : Int)
    (claims : Claims) (valid : Bool) (l1 : Nat)
    (h : parse1 args.publicKeys = (ParseResult.parsed claims valid, l1)) :
    validateCore parse1 parse2 dsecs args fetch nowNs =
      (validateFinish claims valid dsecs nowNs, ⟨1, 0, l1, some (claims, valid)⟩) := by
  unfold validateCore
  rw [h]

/-- Equation: a failed first attempt followed by a failed refresh surfaces
the refresh's error, with no second parse attempt. -/
theorem validateCore_eq_popFail (parse1 parse2 : KeyMap → ParseResult × Nat)
    (dsecs : String) (args : JWKSArgs) (fetch : FetchOutcome) (nowNs : Int)
    (m1 : String) (l1 : Nat) (args2 : JWKSArgs) (pe : PopError) (req : Bool)
    (h1 : parse1 args.publicKeys = (ParseResult.failed m1, l1))
    (h2 : populatePublicKey args fetch = (args2, some pe, req)) :
    validateCore parse1 parse2 dsecs args fetch nowNs =
      (Except.error (GoError.populate pe), ⟨1, 1, l1, none⟩) := by
  unfold validateCore
  rw [h1, h2]

/-- Equation: a failed first attempt, a successful refresh, and a failed
retry surface the retry's error. -/
theorem validateCore_eq_failed2 (parse1 parse2 : KeyMap → ParseResult × Nat)
    (dsecs : String) (args : JWKSArgs) (fetch : FetchOutcome) (nowNs : Int)
    (m1 : String) (l1 : Nat) (args2 : JWKSArgs) (req : Bool) (m2 : String) (l2 : Nat)
    (h1 : parse1 args.publicKeys = (ParseResult.failed m1, l1))
    (h2 : populatePublicKey args fetch = (args2, none, req))
    (h3 : parse2 args2.publicKeys = (ParseResult.failed m2, l2)) :
    validateCore parse1 parse2 dsecs args fetch nowNs =
      (Except.error (GoError.parseMsg m2), ⟨2, 1, l1 + l2, none⟩) := by
  unfold validateCore
  rw [h1, h2]
  dsimp only
  rw [h3]

/-- Equation: a failed first attempt, a successful refresh, and an
error-free retry continue into the expiry logic with the retry's claims. -/
theorem validateCore_eq_parsed2 (parse1 parse2 : KeyMap → ParseResult × Nat)
    (dsecs : String) (args : JWKSArgs) (fetch : FetchOutcome) (nowNs : Int)
    (m1 : String) (l1 : Nat) (args2 : JWKSArgs) (req : Bool)
    (claims : Claims) (valid : Bool) (l2 : Nat)
    (h1 : parse1 args.publicKeys = (ParseResult.failed m1, l1))
    (h2 : populatePublicKey args fetch = (args2, none, req))
    (h3 : parse2 args2.publicKeys = (ParseResult.parsed claims valid, l2)) :
    validateCore parse1 parse2 dsecs args fetch nowNs =
      (validateFinish claims valid dsecs nowNs, ⟨2, 1, l1 + l2, some (claims, valid)⟩) := by
  unfold validateCore
  rw [h1, h2]
  dsimp only
  rw [h3]

/-- C2: whenever `Validate` accepts a token, the returned claim set is the
claim set decoded from the token by the successful parse attempt, unchanged
on every field — and the rewrite condition `expAt < now + effective
duration` (floored to seconds, as the code computes it) can never hold, so
the expiry claim is rewritten exactly when that condition holds, namely
never, and left as-is otherwise.  In particular a token with expiry
`now+100s` and an empty requested duration keeps its original expiry
claim. -/
theorem validate_claims_unchanged (parse1 parse2 : KeyMap → ParseResult × Nat)
    (dsecs : String) (args : JWKSArgs) (fetch : FetchOutcome) (nowNs : Int)
    (c' : Claims)
    (h : (validateCore parse1 parse2 dsecs args fetch nowNs).1 = Except.ok c') :
    (validateCore parse1 parse2 dsecs args fetch nowNs).2.decoded = some (c', true) ∧
    (∀ expAt d, expToInt64 (claimLookup c' "exp") = Except.ok expAt →
      getDefaultExpiration dsecs = Except.ok d →
      ¬ expAt <
        Int.fdiv (nowNs + effectiveDuration d (expAt * 1000000000 - nowNs))
          1000000000) := by
  refine ⟨?_, fun expAt d _ _ => not_lt.mpr (fdiv_expiry_le nowNs expAt d)⟩
  rcases hp1 : parse1 args.publicKeys with ⟨r1, l1⟩
  cases r1 with
  | parsed claims valid =>
    rw [validateCore_eq_parsed1 parse1 parse2 dsecs args fetch nowNs
      claims valid l1 hp1] at h ⊢
    obtain ⟨hc, hv⟩ := validateFinish_ok claims valid dsecs nowNs c' h
    simp [hc, hv]
  | failed m1 =>
    rcases hpop : populatePublicKey args fetch with ⟨args2, perr, req⟩
    cases perr with
    | some pe =>
      rw [validateCore_eq_popFail parse1 parse2 dsecs args fetch nowNs
        m1 l1 args2 pe req hp1 hpop] at h
      cases h
    | none =>
      rcases hp2 : parse2 args2.publicKeys with ⟨r2, l2⟩
      cases r2 with
      | failed m2 =>
        rw [validateCore_eq_failed2 parse1 parse2 dsecs args fetch nowNs
          m1 l1 args2 req m2 l2 hp1 hpop hp2] at h
        cases h
      | parsed claims valid =>
        rw [validateCore_eq_parsed2 parse1 parse2 dsecs args fetch nowNs
          m1 l1 args2 req claims valid l2 hp1 hpop hp2] at h ⊢
        obtain ⟨hc, hv⟩ := validateFinish_ok claims valid dsecs nowNs c' h
        simp [hc, hv]

/-- C2 witness: a token whose expiry is 100 seconds after now, validated
with an empty requested duration: the returned claim set is the decoded one
with the expiry claim equal to the token's original expiry, and the rewrite
condition fails at the original expiry with the default duration. -/
theorem validate_claims_unchanged_witness :
    (validateCore
        (fun _ => (ParseResult.parsed
          [("exp", GoVal.vfloat 1700000100), ("sub", GoVal.vstring "alice")] true, 1))
        (fun _ => (ParseResult.failed "unused", 0)) ""
        ⟨some "https://idp.example/keys", []⟩ FetchOutcome.transportErr
        (1700000000 * 1000000000)).2.decoded =
      some ([("exp", GoVal.vfloat 1700000100), ("sub", GoVal.vstring "alice")], true) ∧
    (∀ expAt d,
      expToInt64 (claimLookup
        [("exp", GoVal.vfloat 1700000100), ("sub", GoVal.vstring "alice")] "exp") =
          Except.ok expAt →
      getDefaultExpiration "" = Except.ok d →
      ¬ expAt <
        Int.fdiv ((1700000000 * 1000000000 : Int) +
          effectiveDuration d (expAt * 1000000000 - 1700000000 * 1000000000))
          1000000000) :=
  validate_claims_unchanged
    (fun _ => (ParseResult.parsed
      [("exp", GoVal.vfloat 1700000100), ("sub", GoVal.vstring "alice")] true, 1))
    (fun _ => (ParseResult.failed "unused", 0)) ""
    ⟨some "https://idp.example/keys", []⟩ FetchOutcome.transportErr
    (1700000000 * 1000000000)
    [("exp", GoVal.vfloat 1700000100), ("sub", GoVal.vstring "alice")]
    (by decide)

/-- C4: the effective duration computed by `Validate` — the clamp of the
expiry-policy duration `d` against the token's remaining time-to-expiry —
never exceeds the remaining validity, never exceeds `d` itself (which is the
3600s default for an empty request and the requested seconds otherwise),
and equals the remaining validity whenever that is the smaller. -/
theorem effectiveDuration_bounds (dsecs : String) (d expAt nowNs : Int)
    (h : getDefaultExpiration dsecs = Except.ok d) :
    effectiveDuration d (expAt * 1000000000 - nowNs) ≤ d ∧
    effectiveDuration d (expAt * 1000000000 - nowNs) ≤ expAt * 1000000000 - nowNs ∧
    (expAt * 1000000000 - nowNs < d →
      effectiveDuration d (expAt * 1000000000 - nowNs) = expAt * 1000000000 - nowNs) ∧
    (dsecs = "" → d = 3600 * 1000000000) ∧
    (∀ v, dsecs ≠ "" → goParseInt64 dsecs = some v → d = v * 1000000000) := by
  refine ⟨?_, ?_, ?_, ?_, ?_⟩
  · unfold effectiveDuration
    by_cases hc : expAt * 1000000000 - nowNs < d
    · rw [if_pos hc]; omega
    · rw [if_neg hc]
  · unfold effectiveDuration
    by_cases hc : expAt * 1000000000 - nowNs < d
    · rw [if_pos hc]
    · rw [if_neg hc]; omega
  · intro hc; unfold effectiveDuration; rw [if_pos hc]
  · intro he
    subst he
    simp only [getDefaultExpiration, ne_eq, not_true_eq_false, if_false,
      Except.ok.injEq] at h
    omega
  · intro v hne hv
    simp only [getDefaultExpiration, if_pos hne, hv] at h
    split at h
    · cases h
    · simp only [Except.ok.injEq] at h
      omega

/-- C4 witness: a requested duration of 900 seconds against a token with
100 seconds of life left: the effective duration is clamped to the token's
remaining validity and is below both bounds. -/
theorem effectiveDuration_bounds_witness :
    getDefaultExpiration "900" = Except.ok (900 * 1000000000) ∧
    (effectiveDuration (900 * 1000000000)
        (1700000100 * 1000000000 - 1700000000 * 1000000000) ≤ 900 * 1000000000 ∧
      effectiveDuration (900 * 1000000000)
        (1700000100 * 1000000000 - 1700000000 * 1000000000) ≤
        1700000100 * 1000000000 - 1700000000 * 1000000000 ∧
      ((1700000100 * 1000000000 - 1700000000 * 1000000000 : Int) < 900 * 1000000000 →
        effectiveDuration (900 * 1000000000)
          (1700000100 * 1000000000 - 1700000000 * 1000000000) =
          1700000100 * 1000000000 - 1700000000 * 1000000000) ∧
      (("900" : String) = "" → (900 * 1000000000 : Int) = 3600 * 1000000000) ∧
      (∀ v, ("900" : String) ≠ "" → goParseInt64 "900" = some v →
        (900 * 1000000000 : Int) = v * 1000000000)) :=
  ⟨by decide,
   effectiveDuration_bounds "900" (900 * 1000000000) 1700000100
     (1700000000 * 1000000000) (by decide)⟩

/-- C6: a single `Validate` call makes at most two parse attempts and at
most one refresh; a first-attempt failure triggers exactly one refresh; a
successful refresh is followed by exactly one retry; a failing retry's
error (or the refresh's own error) is surfaced as the final answer, and a
first-attempt success performs no refresh at all. -/
theorem validate_single_retry (parse1 parse2 : KeyMap → ParseResult × Nat)
    (dsecs : String) (args : JWKSArgs) (fetch : FetchOutcome) (nowNs : Int) :
    (validateCore parse1 parse2 dsecs args fetch nowNs).2.parses ≤ 2 ∧
    (validateCore parse1 parse2 dsecs args fetch nowNs).2.refreshes ≤ 1 ∧
    (∀ m1 l1, parse1 args.publicKeys = (ParseResult.failed m1, l1) →
      (validateCore parse1 parse2 dsecs args fetch nowNs).2.refreshes = 1) ∧
    (∀ m1 l1 args2 req, parse1 args.publicKeys = (ParseResult.failed m1, l1) →
      populatePublicKey args fetch = (args2, none, req) →
      (validateCore parse1 parse2 dsecs args fetch nowNs).2.parses = 2) ∧
    (∀ m1 l1 args2 req m2 l2, parse1 args.publicKeys = (ParseResult.failed m1, l1) →
      populatePublicKey args fetch = (args2, none, req) →
      parse2 args2.publicKeys = (ParseResult.failed m2, l2) →
      (validateCore parse1 parse2 dsecs args fetch nowNs).1 =
        Except.error (GoError.parseMsg m2)) ∧
    (∀ m1 l1 args2 pe req, parse1 args.publicKeys = (ParseResult.failed m1, l1) →
      populatePublicKey args fetch = (args2, some pe, req) →
      (validateCore parse1 parse2 dsecs args fetch nowNs).1 =
        Except.error (GoError.populate pe)) ∧
    (∀ claims valid l1, parse1 args.publicKeys = (ParseResult.parsed claims valid, l1) →
      (validateCore parse1 parse2 dsecs args fetch nowNs).2.refreshes = 0 ∧
      (validateCore parse1 parse2 dsecs args fetch nowNs).2.parses = 1) := by
  have hcases : (validateCore parse1 parse2 dsecs args fetch nowNs).2.parses ≤ 2 ∧
      (validateCore parse1 parse2 dsecs args fetch nowNs).2.refreshes ≤ 1 := by
    rcases hp1 : parse1 args.publicKeys with ⟨r1, l1⟩
    cases r1 with
    | parsed claims valid =>
      rw [validateCore_eq_parsed1 parse1 parse2 dsecs args fetch nowNs
        claims valid l1 hp1]
      refine ⟨?_, ?_⟩ <;> simp
    | failed m1 =>
      rcases hpop : populatePublicKey args fetch with ⟨args2, perr, req⟩
      cases perr with
      | some pe =>
        rw [validateCore_eq_popFail parse1 parse2 dsecs args fetch nowNs
          m1 l1 args2 pe req hp1 hpop]
        refine ⟨?_, ?_⟩ <;> simp
      | none =>
        rcases hp2 : parse2 args2.publicKeys with ⟨r2, l2⟩
        cases r2 with
        | failed m2 =>
          rw [validateCore_eq_failed2 parse1 parse2 dsecs args fetch nowNs
            m1 l1 args2 req m2 l2 hp1 hpop hp2]
          refine ⟨?_, ?_⟩ <;> simp
        | parsed claims valid =>
          rw [validateCore_eq_parsed2 parse1 parse2 dsecs args fetch nowNs
            m1 l1 args2 req claims valid l2 hp1 hpop hp2]
          refine ⟨?_, ?_⟩ <;> simp
  refine ⟨hcases.1, hcases.2, ?_, ?_, ?_, ?_, ?_⟩
  · intro m1 l1 hp1
    rcases hpop : populatePublicKey args fetch with ⟨args2, perr, req⟩
    cases perr with
    | some pe =>
      rw [validateCore_eq_popFail parse1 parse2 dsecs args fetch nowNs
        m1 l1 args2 pe req hp1 hpop]
    | none =>
      rcases hp2 : parse2 args2.publicKeys with ⟨r2, l2⟩
      cases r2 with
      | failed m2 =>
        rw [validateCore_eq_failed2 parse1 parse2 dsecs args fetch nowNs
          m1 l1 args2 req m2 l2 hp1 hpop hp2]
      | parsed claims valid =>
        rw [validateCore_eq_parsed2 parse1 parse2 dsecs args fetch nowNs
          m1 l1 args2 req claims valid l2 hp1 hpop hp2]
  · intro m1 l1 args2 req hp1 hpop
    rcases hp2 : parse2 args2.publicKeys with ⟨r2, l2⟩
    cases r2 with
    | failed m2 =>
      rw [validateCore_eq_failed2 parse1 parse2 dsecs args fetch nowNs
        m1 l1 args2 req m2 l2 hp1 hpop hp2]
    | parsed claims valid =>
      rw [validateCore_eq_parsed2 parse1 parse2 dsecs args fetch nowNs
        m1 l1 args2 req claims valid l2 hp1 hpop hp2]
  · intro m1 l1 args2 req m2 l2 hp1 hpop hp2
    rw [validateCore_eq_failed2 parse1 parse2 dsecs args fetch nowNs
      m1 l1 args2 req m2 l2 hp1 hpop hp2]
  · intro m1 l1 args2 pe req hp1 hpop
    rw [validateCore_eq_popFail parse1 parse2 dsecs args fetch nowNs
      m1 l1 args2 pe req hp1 hpop]
  · intro claims valid l1 hp1
    rw [validateCore_eq_parsed1 parse1 parse2 dsecs args fetch nowNs
      claims valid l1 hp1]
    exact ⟨rfl, rfl⟩

/-- C6 witness: a token whose key is missing before the refresh and valid
after it: the call makes exactly two parse attempts and one refresh.  A
persistently failing token stops after the second attempt with its error. -/
theorem validate_single_retry_witness :
    (validateCore (fun _ => (ParseResult.failed "key missing", 1))
        (fun _ => (ParseResult.failed "signature invalid", 1)) ""
        ⟨some "https://idp.example/keys", []⟩
        (FetchOutcome.resp 200 (some [⟨"k", some 7⟩]))
        (1700000000 * 1000000000)).2.refreshes = 1 ∧
    (validateCore (fun _ => (ParseResult.failed "key missing", 1))
        (fun _ => (ParseResult.failed "signature invalid", 1)) ""
        ⟨some "https://idp.example/keys", []⟩
        (FetchOutcome.resp 200 (some [⟨"k", some 7⟩]))
        (1700000000 * 1000000000)).2.parses = 2 ∧
    (validateCore (fun _ => (ParseResult.failed "key missing", 1))
        (fun _ => (ParseResult.failed "signature invalid", 1)) ""
        ⟨some "https://idp.example/keys", []⟩
        (FetchOutcome.resp 200 (some [⟨"k", some 7⟩]))
        (1700000000 * 1000000000)).1 =
      Except.error (GoError.parseMsg "signature invalid") :=
  ⟨(validate_single_retry (fun _ => (ParseResult.failed "key missing", 1))
      (fun _ => (ParseResult.failed "signature invalid", 1)) ""
      ⟨some "https://idp.example/keys", []⟩
      (FetchOutcome.resp 200 (some [⟨"k", some 7⟩]))
      (1700000000 * 1000000000)).2.2.1 "key missing" 1 rfl,
   (validate_single_retry (fun _ => (ParseResult.failed "key missing", 1))
      (fun _ => (ParseResult.failed "signature invalid", 1)) ""
      ⟨some "https://idp.example/keys", []⟩
      (FetchOutcome.resp 200 (some [⟨"k", some 7⟩]))
      (1700000000 * 1000000000)).2.2.2.1 "key missing" 1
      ⟨some "https://idp.example/keys", [("k", 7)]⟩ true rfl (by decide),
   (validate_single_retry (fun _ => (ParseResult.failed "key missing", 1))
      (fun _ => (ParseResult.failed "signature invalid", 1)) ""
      ⟨some "https://idp.example/keys", []⟩
      (FetchOutcome.resp 200 (some [⟨"k", some 7⟩]))
      (1700000000 * 1000000000)).2.2.2.2.1 "key missing" 1
      ⟨some "https://idp.example/keys", [("k", 7)]⟩ true "signature invalid" 1
      rfl (by decide) rfl⟩

/-! Support for the algorithm allow-list and refresh-policy claims. -/

/-- One parse attempt indexes the key cache at most once. -/
theorem parseModel_lookups_le_one (methods : List String) (tok : TokenModel)
    (keys : KeyMap) (nowSec : Int) : (parseModel methods tok keys nowSec).2 ≤ 1 := by
  unfold parseModel
  by_cases h1 : tok.alg ∉ knownAlgs
  · rw [if_pos h1]; simp
  · rw [if_neg h1]
    by_cases h2 : methods ≠ [] ∧ tok.alg ∉ methods
    · rw [if_pos h2]; simp
    · rw [if_neg h2]
      cases tok.kid with
      | vstring s =>
        dsimp only
        split_ifs <;> simp
      | vfloat i => simp
      | vint i => simp
      | vnumber s => simp
      | vnil => simp
      | vother => simp

/-- The restricted first parser rejects any algorithm outside the
allow-list before touching the key cache. -/
theorem parseModel_notAllowed (tok : TokenModel) (km : KeyMap) (nowSec : Int)
    (h : tok.alg ∉ validMethods) :
    ∃ m, parseModel validMethods tok km nowSec = (ParseResult.failed m, 0) := by
  by_cases hk : tok.alg ∈ knownAlgs
  · refine ⟨"signing method invalid", ?_⟩
    unfold parseModel
    rw [if_neg (by simpa using hk), if_pos ⟨by simp [validMethods], h⟩]
  · refine ⟨"signing method unavailable", ?_⟩
    unfold parseModel
    rw [if_pos (by simpa using hk)]

/-- A symmetric-algorithm token can never verify: the stored keys are
asymmetric public-key material, so every parse attempt fails on it. -/
theorem parseModel_hmac_fails (methods : List String) (tok : TokenModel)
    (km : KeyMap) (nowSec : Int) (h : tok.alg ∈ hmacAlgs)
    (hm : ¬ (methods ≠ [] ∧ tok.alg ∉ methods)) :
    ∃ m l, parseModel methods tok km nowSec = (ParseResult.failed m, l) := by
  have hk : tok.alg ∈ knownAlgs := by
    simp only [hmacAlgs, List.mem_cons, List.not_mem_nil, or_false] at h
    rcases h with h | h | h <;> simp [knownAlgs, h]
  unfold parseModel
  rw [if_neg (by simpa using hk), if_neg hm]
  cases tok.kid with
  | vstring s =>
    refine ⟨"signature invalid", 1, ?_⟩
    dsimp only
    rw [if_pos (by simp [h])]
  | vfloat i => exact ⟨"invalid kid value", 0, rfl⟩
  | vint i => exact ⟨"invalid kid value", 0, rfl⟩
  | vnumber s => exact ⟨"invalid kid value", 0, rfl⟩
  | vnil => exact ⟨"invalid kid value", 0, rfl⟩
  | vother => exact ⟨"invalid kid value", 0, rfl⟩

/-- A symmetric token whose key id is a known entry of the key cache. -/
def hsToken : TokenModel :=
  ⟨"HS256", GoVal.vstring "k", [("exp", GoVal.vfloat 9999999999)], fun _ => true⟩

/-- An RSA-PSS token — asymmetric, but outside the allow-list — whose
signature verifies under the cached key. -/
def psToken : TokenModel :=
  ⟨"PS256", GoVal.vstring "k", [("exp", GoVal.vfloat 9999999999)], fun _ => true⟩

/-- A configured record whose cache already holds the key id `k`. -/
def exArgs : JWKSArgs := ⟨some "https://idp.example/keys", [("k", 5)]⟩

/-- A fetch that succeeds and returns the same single key. -/
def exFetch : FetchOutcome := FetchOutcome.resp 200 (some [⟨"k", some 5⟩])

/-- A fixed validation instant, in nanoseconds since the epoch. -/
def exNow : Int := 1700000000 * 1000000000

/-- C3 counterexample: the retry parse uses the package-level default
parser, which enforces no allow-list.  An HS256 token is rejected by the
first attempt with no lookup, but the retry performs one key lookup, so the
call's lookup count is 1, not 0.  Worse, a PS256 token — also outside the
allow-list — sails through the retry and is accepted outright. -/
theorem validate_allowlist_counterexample :
    ("HS256" ∉ validMethods) ∧
    (validateJWT hsToken "" exArgs exFetch exNow).2.lookups = 1 ∧
    (validateJWT hsToken "" exArgs exFetch exNow).1 =
      Except.error (GoError.parseMsg "signature invalid") ∧
    ("PS256" ∉ validMethods) ∧
    (validateJWT psToken "" exArgs exFetch exNow).1 =
      Except.ok [("exp", GoVal.vfloat 9999999999)] := by
  decide

/-- C3 amended: a token with an algorithm outside the allow-list is
rejected by the first parse attempt with no key lookup; the call then
refreshes and retries under the default parser, which does not enforce the
allow-list, so the call as a whole performs at most one key lookup — and
only for symmetric algorithms is rejection still guaranteed, because a
stored asymmetric public key can never satisfy an HMAC verification. -/
theorem validate_disallowed_alg (tok : TokenModel) (dsecs : String)
    (args : JWKSArgs) (fetch : FetchOutcome) (nowNs : Int)
    (h : tok.alg ∉ validMethods) :
    (∀ km, ∃ m, parseModel validMethods tok km (Int.fdiv nowNs 1000000000) =
      (ParseResult.failed m, 0)) ∧
    (validateJWT tok dsecs args fetch nowNs).2.lookups ≤ 1 ∧
    (tok.alg ∈ hmacAlgs →
      ∃ e, (validateJWT tok dsecs args fetch nowNs).1 = Except.error e) := by
  obtain ⟨m1, hm1⟩ :=
    parseModel_notAllowed tok args.publicKeys (Int.fdiv nowNs 1000000000) h
  refine ⟨fun km => parseModel_notAllowed tok km (Int.fdiv nowNs 1000000000) h,
    ?_, ?_⟩
  · unfold validateJWT
    rcases hpop : populatePublicKey args fetch with ⟨args2, perr, req⟩
    cases perr with
    | some pe =>
      rw [validateCore_eq_popFail _ _ dsecs args fetch nowNs m1 0 args2 pe req
        hm1 hpop]
      simp
    | none =>
      rcases hp2 : parseModel [] tok args2.publicKeys (Int.fdiv nowNs 1000000000)
        with ⟨r2, l2⟩
      have hl2 : l2 ≤ 1 := by
        have := parseModel_lookups_le_one [] tok args2.publicKeys
          (Int.fdiv nowNs 1000000000)
        rw [hp2] at this
        exact this
      cases r2 with
      | failed m2 =>
        rw [validateCore_eq_failed2 _ _ dsecs args fetch nowNs m1 0 args2 req
          m2 l2 hm1 hpop hp2]
        simpa using hl2
      | parsed claims valid =>
        rw [validateCore_eq_parsed2 _ _ dsecs args fetch nowNs m1 0 args2 req
          claims valid l2 hm1 hpop hp2]
        simpa using hl2
  · intro hh
    unfold validateJWT
    rcases hpop : populatePublicKey args fetch with ⟨args2, perr, req⟩
    cases perr with
    | some pe =>
      refine ⟨GoError.populate pe, ?_⟩
      rw [validateCore_eq_popFail _ _ dsecs args fetch nowNs m1 0 args2 pe req
        hm1 hpop]
    | none =>
      obtain ⟨m2, l2, hp2⟩ := parseModel_hmac_fails [] tok args2.publicKeys
        (Int.fdiv nowNs 1000000000) hh (by simp)
      refine ⟨GoError.parseMsg m2, ?_⟩
      rw [validateCore_eq_failed2 _ _ dsecs args fetch nowNs m1 0 args2 req
        m2 l2 hm1 hpop hp2]

/-- C3 amended witness: an HS384 token against a concrete configured cache:
at most one lookup, and the call errors. -/
theorem validate_disallowed_alg_witness :
    ("HS384" ∉ validMethods) ∧
    (validateJWT ⟨"HS384", GoVal.vstring "k", [], fun _ => true⟩ "" exArgs
      exFetch exNow).2.lookups ≤ 1 ∧
    (∃ e, (validateJWT ⟨"HS384", GoVal.vstring "k", [], fun _ => true⟩ "" exArgs
      exFetch exNow).1 = Except.error e) :=
  ⟨by decide,
   (validate_disallowed_alg ⟨"HS384", GoVal.vstring "k", [], fun _ => true⟩ ""
     exArgs exFetch exNow (by decide)).2.1,
   (validate_disallowed_alg ⟨"HS384", GoVal.vstring "k", [], fun _ => true⟩ ""
     exArgs exFetch exNow (by decide)).2.2 (by decide)⟩

/-- A configured endpoint always issues the HTTP request when refreshed. -/
theorem populatePublicKey_requests (r : JWKSArgs) (u : String)
    (fetch : FetchOutcome) (h : r.url = some u) :
    (populatePublicKey r fetch).2.2 = true := by
  unfold populatePublicKey
  rw [h]
  cases fetch with
  | transportErr => rfl
  | resp status body =>
    dsimp only
    by_cases hs : status ≠ 200
    · rw [if_pos hs]
    · rw [if_neg hs]
      cases body with
      | none => rfl
      | some keys => rfl

/-- C9 counterexample: configuring a record that carries a key-set URL
makes `LookupConfig` fetch the key set eagerly, at configuration time: the
request flag is set and the public-key set is already non-empty before any
`Validate` call has run — the set does not stay empty until a verification
miss. -/
theorem lookupConfig_eager_counterexample :
    (lookupConfig ⟨some "https://idp.example/keys", []⟩ none
      (fun s => some s) exFetch).2.2 = true ∧
    (lookupConfig ⟨some "https://idp.example/keys", []⟩ none
      (fun s => some s) exFetch).1.publicKeys = [("k", 5)] := by
  decide

/-- C9 amended: with no effective URL configured, `LookupConfig` issues no
request and returns its arguments unchanged, and the key set stays as it
was; with a URL configured (from config or environment) it performs one
eager refresh already at configuration time; inside `Validate`, a refresh
happens only after a failed verification attempt, and never more than
once per call. -/
theorem lookupConfig_refresh_policy (args : JWKSArgs) (envVal : Option String)
    (parseURL : String → Option String) (fetch : FetchOutcome) :
    (effectiveJwksURL args envVal = "" →
      lookupConfig args envVal parseURL fetch = (args, none, false)) ∧
    (∀ u, effectiveJwksURL args envVal ≠ "" →
      parseURL (effectiveJwksURL args envVal) = some u →
      (lookupConfig args envVal parseURL fetch).2.2 = true) ∧
    (∀ parse1 parse2 dsecs nowNs,
      (validateCore parse1 parse2 dsecs args fetch nowNs).2.refreshes ≤ 1 ∧
      ((validateCore parse1 parse2 dsecs args fetch nowNs).2.refreshes = 1 →
        ∃ m l1, parse1 args.publicKeys = (ParseResult.failed m, l1))) := by
  refine ⟨?_, ?_, ?_⟩
  · intro h
    unfold lookupConfig
    rw [if_pos h]
  · intro u hne hp
    unfold lookupConfig
    rw [if_neg hne, hp]
    dsimp only
    rcases hpop : populatePublicKey { args with url := some u } fetch
      with ⟨args2, perr, req⟩
    have hreq : req = true := by
      have := populatePublicKey_requests { args with url := some u } u fetch rfl
      rw [hpop] at this
      exact this
    cases perr with
    | some e => simpa using hreq
    | none => simpa using hreq
  · intro parse1 parse2 dsecs nowNs
    rcases hp1 : parse1 args.publicKeys with ⟨r1, l1⟩
    cases r1 with
    | parsed claims valid =>
      rw [validateCore_eq_parsed1 parse1 parse2 dsecs args fetch nowNs
        claims valid l1 hp1]
      exact ⟨by simp, by simp⟩
    | failed m1 =>
      rcases hpop : populatePublicKey args fetch with ⟨args2, perr, req⟩
      cases perr with
      | some pe =>
        rw [validateCore_eq_popFail parse1 parse2 dsecs args fetch nowNs
          m1 l1 args2 pe req hp1 hpop]
        exact ⟨by simp, fun _ => ⟨m1, l1, rfl⟩⟩
      | none =>
        rcases hp2 : parse2 args2.publicKeys with ⟨r2, l2⟩
        cases r2 with
        | failed m2 =>
          rw [validateCore_eq_failed2 parse1 parse2 dsecs args fetch nowNs
            m1 l1 args2 req m2 l2 hp1 hpop hp2]
          exact ⟨by simp, fun _ => ⟨m1, l1, rfl⟩⟩
        | parsed claims valid =>
          rw [validateCore_eq_parsed2 parse1 parse2 dsecs args fetch nowNs
            m1 l1 args2 req claims valid l2 hp1 hpop hp2]
          exact ⟨by simp, fun _ => ⟨m1, l1, rfl⟩⟩

/-- C9 amended witness: an unconfigured record is returned untouched with
no request issued. -/
theorem lookupConfig_refresh_policy_witness :
    lookupConfig ⟨none, []⟩ none (fun s => some s) exFetch =
      (⟨none, []⟩, none, false) :=
  (lookupConfig_refresh_policy ⟨none, []⟩ none (fun s => some s) exFetch).1
    (by decide)

/-! Support for the expired-token error claim. -/

/-- Numeric coercion of the expiry claim never produces `TokenExpired`. -/
theorem expToInt64_not_tokenExpired (v : GoVal) :
    expToInt64 v ≠ Except.error GoError.tokenExpired := by
  cases v with
  | vnumber s =>
    unfold expToInt64
    cases hg : goParseInt64 s <;> simp [hg]
  | vfloat i => simp [expToInt64]
  | vint i => simp [expToInt64]
  | vstring s => simp [expToInt64]
  | vnil => simp [expToInt64]
  | vother => simp [expToInt64]

/-- The expiry policy never produces `TokenExpired`. -/
theorem getDefaultExpiration_not_tokenExpired (s : String) :
    getDefaultExpiration s ≠ Except.error GoError.tokenExpired := by
  unfold getDefaultExpiration
  by_cases hs : s ≠ ""
  · rw [if_pos hs]
    cases goParseInt64 s with
    | none => simp
    | some v =>
      dsimp only
      split_ifs <;> simp
  · rw [if_neg hs]; simp

/-- The tail of `Validate` after an error-free parse of a valid token can
fail with duration errors or the format panic, but never `TokenExpired`. -/
theorem validateFinish_true_not_tokenExpired (claims : Claims) (dsecs : String)
    (nowNs : Int) :
    validateFinish claims true dsecs nowNs ≠ Except.error GoError.tokenExpired := by
  unfold validateFinish
  rw [if_neg (by simp)]
  cases hexp : expToInt64 (claimLookup claims "exp") with
  | error e =>
    dsimp only
    intro hc
    injection hc with he
    exact expToInt64_not_tokenExpired (claimLookup claims "exp") (by rw [hexp, he])
  | ok expAt =>
    dsimp only
    cases hdur : getDefaultExpiration dsecs with
    | error e =>
      dsimp only
      intro hc
      injection hc with he
      exact getDefaultExpiration_not_tokenExpired dsecs (by rw [hdur, he])
    | ok d =>
      dsimp only
      split_ifs <;> simp

/-- The vendored parser never yields an error-free token whose `Valid` flag
is false: whenever claims validation fails it returns a non-nil validation
error, so the `TokenExpired` branch of `Validate` is unreachable. -/
theorem parseModel_parsed_valid (methods : List String) (tok : TokenModel)
    (keys : KeyMap) (nowSec : Int) (claims : Claims) (valid : Bool)
    (h : (parseModel methods tok keys nowSec).1 = ParseResult.parsed claims valid) :
    valid = true := by
  unfold parseModel at h
  by_cases h1 : tok.alg ∉ knownAlgs
  · rw [if_pos h1] at h; simp at h
  · rw [if_neg h1] at h
    by_cases h2 : methods ≠ [] ∧ tok.alg ∉ methods
    · rw [if_pos h2] at h; simp at h
    · rw [if_neg h2] at h
      cases hkid : tok.kid with
      | vstring s =>
        rw [hkid] at h
        dsimp only at h
        split_ifs at h <;> simp_all
      | vfloat i => rw [hkid] at h; simp at h
      | vint i => rw [hkid] at h; simp at h
      | vnumber s => rw [hkid] at h; simp at h
      | vnil => rw [hkid] at h; simp at h
      | vother => rw [hkid] at h; simp at h

/-- A token whose claims fail temporal validation is rejected by every
parse attempt: the library surfaces a validation error rather than an
error-free invalid token. -/
theorem parseModel_invalid_fails (tok : TokenModel) (nowSec : Int)
    (h : mapClaimsValid tok.claims nowSec = false) (methods : List String)
    (keys : KeyMap) :
    ∃ m l, parseModel methods tok keys nowSec = (ParseResult.failed m, l) := by
  unfold parseModel
  by_cases h1 : tok.alg ∉ knownAlgs
  · refine ⟨"signing method unavailable", 0, ?_⟩
    rw [if_pos h1]
  · by_cases h2 : methods ≠ [] ∧ tok.alg ∉ methods
    · refine ⟨"signing method invalid", 0, ?_⟩
      rw [if_neg h1, if_pos h2]
    · rw [if_neg h1, if_neg h2]
      cases tok.kid with
      | vstring s =>
        dsimp only
        split_ifs <;>
          first
            | exact ⟨"signature invalid", 1, rfl⟩
            | exact ⟨"token expired", 1, rfl⟩
            | simp_all
      | vfloat i => exact ⟨"invalid kid value", 0, rfl⟩
      | vint i => exact ⟨"invalid kid value", 0, rfl⟩
      | vnumber s => exact ⟨"invalid kid value", 0, rfl⟩
      | vnil => exact ⟨"invalid kid value", 0, rfl⟩
      | vother => exact ⟨"invalid kid value", 0, rfl⟩

/-- C7 counterexample: an RS256 token whose signature verifies under the
cached key `k` but whose expiry (1600000000) lies in the past at the
validation instant (1700000000): its claims fail temporal validation, and
the call fails with the retry's validation error `parseMsg "token expired"`
— after triggering one refresh — not with `TokenExpired`. -/
theorem validate_expired_counterexample :
    mapClaimsValid [("exp", GoVal.vfloat 1600000000)]
      (Int.fdiv exNow 1000000000) = false ∧
    (validateJWT ⟨"RS256", GoVal.vstring "k",
        [("exp", GoVal.vfloat 1600000000)], fun _ => true⟩
        "" exArgs exFetch exNow).1 =
      Except.error (GoError.parseMsg "token expired") ∧
    (validateJWT ⟨"RS256", GoVal.vstring "k",
        [("exp", GoVal.vfloat 1600000000)], fun _ => true⟩
        "" exArgs exFetch exNow).1 ≠ Except.error GoError.tokenExpired ∧
    (validateJWT ⟨"RS256", GoVal.vstring "k",
        [("exp", GoVal.vfloat 1600000000)], fun _ => true⟩
        "" exArgs exFetch exNow).2.refreshes = 1 := by
  decide

/-- C7 amended: a token whose signature verifies but which is not
temporally valid still makes `Validate` fail, but the surfaced error is the
retry attempt's validation error (or the refresh's own error), never
`TokenExpired`: the vendored parser couples a nil error with a set `Valid`
flag, so no parse attempt returns an error-free invalid token and the
`TokenExpired` branch of `Validate` is unreachable. -/
theorem validate_expired_error_policy :
    (∀ methods tok keys nowSec claims valid,
      (parseModel methods tok keys nowSec).1 = ParseResult.parsed claims valid →
      valid = true) ∧
    (∀ tok dsecs args fetch nowNs,
      (validateJWT tok dsecs args fetch nowNs).1 ≠
        Except.error GoError.tokenExpired) ∧
    (∀ tok dsecs args fetch nowNs,
      mapClaimsValid tok.claims (Int.fdiv nowNs 1000000000) = false →
      ∃ e, (validateJWT tok dsecs args fetch nowNs).1 = Except.error e ∧
        e ≠ GoError.tokenExpired) := by
  refine ⟨parseModel_parsed_valid, ?_, ?_⟩
  · intro tok dsecs args fetch nowNs
    unfold validateJWT
    rcases hp1 : parseModel validMethods tok args.publicKeys
      (Int.fdiv nowNs 1000000000) with ⟨r1, l1⟩
    cases r1 with
    | parsed claims valid =>
      have hv : valid = true := parseModel_parsed_valid validMethods tok
        args.publicKeys (Int.fdiv nowNs 1000000000) claims valid (by rw [hp1])
      subst hv
      rw [validateCore_eq_parsed1 _ _ dsecs args fetch nowNs claims true l1 hp1]
      exact validateFinish_true_not_tokenExpired claims dsecs nowNs
    | failed m1 =>
      rcases hpop : populatePublicKey args fetch with ⟨args2, perr, req⟩
      cases perr with
      | some pe =>
        rw [validateCore_eq_popFail _ _ dsecs args fetch nowNs m1 l1 args2 pe
          req hp1 hpop]
        simp
      | none =>
        rcases hp2 : parseModel [] tok args2.publicKeys
          (Int.fdiv nowNs 1000000000) with ⟨r2, l2⟩
        cases r2 with
        | failed m2 =>
          rw [validateCore_eq_failed2 _ _ dsecs args fetch nowNs m1 l1 args2
            req m2 l2 hp1 hpop hp2]
          simp
        | parsed claims valid =>
          have hv : valid = true := parseModel_parsed_valid [] tok
            args2.publicKeys (Int.fdiv nowNs 1000000000) claims valid (by rw [hp2])
          subst hv
          rw [validateCore_eq_parsed2 _ _ dsecs args fetch nowNs m1 l1 args2
            req claims true l2 hp1 hpop hp2]
          exact validateFinish_true_not_tokenExpired claims dsecs nowNs
  · intro tok dsecs args fetch nowNs h
    obtain ⟨m1, l1, hm1⟩ := parseModel_invalid_fails tok
      (Int.fdiv nowNs 1000000000) h validMethods args.publicKeys
    unfold validateJWT
    rcases hpop : populatePublicKey args fetch with ⟨args2, perr, req⟩
    cases perr with
    | some pe =>
      refine ⟨GoError.populate pe, ?_, by simp⟩
      rw [validateCore_eq_popFail _ _ dsecs args fetch nowNs m1 l1 args2 pe
        req hm1 hpop]
    | none =>
      obtain ⟨m2, l2, hm2⟩ := parseModel_invalid_fails tok
        (Int.fdiv nowNs 1000000000) h [] args2.publicKeys
      refine ⟨GoError.parseMsg m2, ?_, by simp⟩
      rw [validateCore_eq_failed2 _ _ dsecs args fetch nowNs m1 l1 args2 req
        m2 l2 hm1 hpop hm2]

/-- C7 amended witness: the expired verifying RS256 token, through the
amended theorem: the call errors with something other than `TokenExpired`. -/
theorem validate_expired_error_policy_witness :
    ∃ e, (validateJWT ⟨"RS256", GoVal.vstring "k",
        [("exp", GoVal.vfloat 1600000000)], fun _ => true⟩
        "" exArgs exFetch exNow).1 = Except.error e ∧
      e ≠ GoError.tokenExpired :=
  validate_expired_error_policy.2.2
    ⟨"RS256", GoVal.vstring "k", [("exp", GoVal.vfloat 1600000000)], fun _ => true⟩
    "" exArgs exFetch exNow (by decide)

end OpenId
